import Mathlib

/-!
Shallow embedding of the socket.io relay server in `src/socket.io.js`.

The server keeps, per the socket.io runtime it is built on:
  * a registry of connected socket ids (`io.sockets`), and
  * a room directory (the adapter's `rooms` map, `Map<Room, Set<SocketId>>`),
    where every connected socket is also a member of the personal room named
    by its own id (this is how `io.to(socketId)` addresses a single socket).

The event handlers registered in `io.on("connection", ...)` are translated
one-to-one below (`handleEvent`): `sendMessage`, `joinRoom`, `roomMessage`,
plus the behaviour of an event name with no registered handler (dropped by
the socket.io event emitter).  A JavaScript `TypeError` thrown by a field
access on an `undefined` payload is modelled by `Except.error`.
-/

abbrev ConnId := String
abbrev RoomName := String

/-- The adapter's room directory: association list from room name to member
ids in insertion order.  A missing key means the room does not exist. -/
abbrev RoomDir := List (RoomName × List ConnId)

/-- Members of a room; the empty list when the room does not exist
(`membersOf` of an absent room is not an error). -/
def membersOf : RoomDir → RoomName → List ConnId
  | [], _ => []
  | (r, ms) :: rest, q => if r = q then ms else membersOf rest q

/-- Set insertion as the adapter performs it on `socket.join`: a member is
appended only if absent, so joining twice has no further effect. -/
def joinMembers (ms : List ConnId) (i : ConnId) : List ConnId :=
  if i ∈ ms then ms else ms ++ [i]

/-- Set removal as the adapter performs it on `socket.leave`: removing an
absent member is a no-op. -/
def leaveMembers (ms : List ConnId) (i : ConnId) : List ConnId :=
  ms.filter (fun x => x ≠ i)

/-- `socket.join(roomName)` on the directory: the room is created on first
join, and an existing room gains the member only if absent. -/
def dirJoin : RoomDir → RoomName → ConnId → RoomDir
  | [], q, i => [(q, [i])]
  | (r, ms) :: rest, q, i =>
      if r = q then (r, joinMembers ms i) :: rest
      else (r, ms) :: dirJoin rest q i

/-- Modelled from the spec: `leaveAll(id)` of the Room Directory (§4.2),
the room cleanup the socket.io adapter runs on disconnect (the repository
only installs the `disconnect` handler; the removal itself happens inside
the library).  The id is removed from every room, and a room thereby
emptied is deleted. -/
def dirLeaveAll : RoomDir → ConnId → RoomDir
  | [], _ => []
  | (r, ms) :: rest, i =>
      let ms2 := leaveMembers ms i
      if ms2.isEmpty then dirLeaveAll rest i else (r, ms2) :: dirLeaveAll rest i

/-- The shared state of the relay: the connection registry and the room
directory. -/
structure ServerState where
  registry : List ConnId
  rooms : RoomDir
deriving DecidableEq

def initState : ServerState := ⟨[], []⟩

/-- A new connection: the id is registered and auto-joins its personal room
(socket.io joins each socket to the room named by its id on connect).
A duplicate id is rejected without touching the state. -/
def connect (st : ServerState) (i : ConnId) : ServerState :=
  if i ∈ st.registry then st
  else ⟨st.registry ++ [i], dirJoin st.rooms i i⟩

/-- Modelled from the spec: `unregister(id)` of the Connection Registry
(§4.1); idempotent removal, performed by the library on disconnect. -/
def unregister (i : ConnId) (st : ServerState) : ServerState :=
  ⟨st.registry.filter (fun x => x ≠ i), st.rooms⟩

/-- `leaveAll` lifted to the server state. -/
def leaveAll (i : ConnId) (st : ServerState) : ServerState :=
  ⟨st.registry, dirLeaveAll st.rooms i⟩

/-- Modelled from the spec: the disconnect cleanup sequence of §4.4 —
`leaveAll(id)` then `unregister(id)`, in that order.  In the source the
`disconnect` handler only logs; the socket.io runtime performs this
cleanup once per closed transport. -/
def disconnectCleanup (i : ConnId) (st : ServerState) : ServerState :=
  unregister i (leaveAll i st)

/-- Payload of the `sendMessage` event.  `none` models an absent field
(JavaScript `undefined`). -/
structure MsgPayload where
  message : Option String
  receiverId : Option String
deriving DecidableEq

/-- Payload of the `roomMessage` event. -/
structure RoomMsgPayload where
  room : RoomName
  message : Option String
deriving DecidableEq

/-- Inbound events the server can receive.  For `sendMessage` and
`roomMessage` the payload is `none` when the client sent no payload
(so the handler's field accesses throw).  `unknownEvent` is any event
name with no registered handler. -/
inductive InboundEvent
  | sendMessage (data : Option MsgPayload)
  | joinRoom (roomName : RoomName)
  | roomMessage (data : Option RoomMsgPayload)
  | unknownEvent (name : String)
deriving DecidableEq

/-- Outbound events, one constructor per `emit` in the source, carrying the
fields of the emitted object. -/
inductive OutboundEvent
  | selfMessage (message : Option String) (fromLabel : String)
  | broadcastMessage (message : Option String) (fromId : ConnId)
  | privateMessage (message : Option String) (fromId : ConnId)
  | roomNotification (message : String) (room : RoomName)
  | roomMessageForward (message : Option String) (fromId : ConnId) (room : RoomName)
deriving DecidableEq

/-- One delivery instruction: which connection receives which outbound
event. -/
structure Delivery where
  target : ConnId
  event : OutboundEvent
deriving DecidableEq

/-- JavaScript truthiness of the `receiverId` field: `undefined` and the
empty string are falsy, any other string is truthy. -/
def truthy : Option String → Bool
  | none => false
  | some s => if s = "" then false else true

/-- The dispatch core: the handlers of `src/socket.io.js`, translated
case by case.

  * `sendMessage`: `socket.emit("selfMessage", ...)` to the sender, then
    `io.emit("broadcastMessage", ...)` to every registered connection, then
    `if (data.receiverId) io.to(data.receiverId).emit("privateMessage", ...)`,
    where `io.to(key)` delivers to every member of the room named `key`
    (a registered socket id addresses its personal room).
  * `joinRoom`: `socket.join(roomName)` first, then
    `io.to(roomName).emit("roomNotification", ...)` over the post-join
    membership.
  * `roomMessage`: `io.to(data.room).emit("roomMessageForward", ...)`.
  * an unrecognized event name has no handler and is dropped.

A `none` payload makes `data.message` / `data.room` throw a `TypeError`,
modelled as `Except.error`. -/
def handleEvent (st : ServerState) (sender : ConnId) (ev : InboundEvent) :
    Except String (ServerState × List Delivery) :=
  match ev with
  | .sendMessage none =>
      .error "TypeError: Cannot read properties of undefined"
  | .sendMessage (some d) =>
      let selfD : Delivery := ⟨sender, .selfMessage d.message "You"⟩
      let bcast : List Delivery :=
        st.registry.map (fun c => ⟨c, .broadcastMessage d.message sender⟩)
      let priv : List Delivery :=
        if truthy d.receiverId then
          (membersOf st.rooms (d.receiverId.getD "")).map
            (fun c => ⟨c, .privateMessage d.message sender⟩)
        else []
      .ok (st, selfD :: (bcast ++ priv))
  | .joinRoom r =>
      let st2 : ServerState := ⟨st.registry, dirJoin st.rooms r sender⟩
      .ok (st2, (membersOf st2.rooms r).map
        (fun c => ⟨c, .roomNotification (sender ++ " joined the room") r⟩))
  | .roomMessage none =>
      .error "TypeError: Cannot read properties of undefined"
  | .roomMessage (some d) =>
      .ok (st, (membersOf st.rooms d.room).map
        (fun c => ⟨c, .roomMessageForward d.message sender d.room⟩))
  | .unknownEvent _ => .ok (st, [])

/-- The state after processing one event (used to build reachable states;
on a thrown handler the state is returned unchanged). -/
def stepState (st : ServerState) (sender : ConnId) (ev : InboundEvent) : ServerState :=
  match handleEvent st sender ev with
  | .ok (st2, _) => st2
  | .error _ => st

/-- Whether a handler completed without throwing. -/
def isOk : Except String (ServerState × List Delivery) → Bool
  | .ok _ => true
  | .error _ => false

/-- States the server actually reaches: no duplicate registrations, every
registered socket is a member of its personal room, and room membership
lists are duplicate-free (the adapter stores them as sets). -/
abbrev WellFormed (st : ServerState) : Prop :=
  st.registry.Nodup ∧ (∀ i ∈ st.registry, i ∈ membersOf st.rooms i) ∧
    ∀ p ∈ st.rooms, p.2.Nodup

/-- A join or leave operation on a single room, for the algebraic
membership property. -/
inductive RoomOp
  | join (i : ConnId)
  | leave (i : ConnId)
deriving DecidableEq

/-- Modelled from the spec: one join/leave step on a room's membership
(§4.2); join is `socket.join`'s set insertion, leave is `socket.leave`'s
set removal. -/
def applyOp (ms : List ConnId) : RoomOp → List ConnId
  | .join i => joinMembers ms i
  | .leave i => leaveMembers ms i

/-- Membership after a sequence of join/leave operations. -/
def applyOps (ops : List RoomOp) (ms : List ConnId) : List ConnId :=
  ops.foldl applyOp ms

/-- Whether the last operation in `ops` touching `i`, starting from a
membership status `b`, leaves `i` a member. -/
def lastStatus (ops : List RoomOp) (i : ConnId) (b : Bool) : Bool :=
  ops.foldl (fun acc op =>
    match op with
    | .join j => if j = i then true else acc
    | .leave j => if j = i then false else acc) b

/-- Whether the last operation in `ops` touching `i` is a join (false when
no operation touches `i`). -/
def lastIsJoin (ops : List RoomOp) (i : ConnId) : Bool :=
  lastStatus ops i false

/-! ### Helper lemmas about the room directory -/

theorem mem_joinMembers {ms : List ConnId} {i j : ConnId} :
    i ∈ joinMembers ms j ↔ i ∈ ms ∨ i = j := by
  unfold joinMembers
  by_cases h : j ∈ ms
  · simp only [if_pos h]
    constructor
    · exact Or.inl
    · rintro (hi | rfl)
      · exact hi
      · exact h
  · simp [if_neg h, List.mem_append]

theorem mem_leaveMembers {ms : List ConnId} {i j : ConnId} :
    i ∈ leaveMembers ms j ↔ i ∈ ms ∧ i ≠ j := by
  simp [leaveMembers, List.mem_filter]

theorem leaveMembers_idem (ms : List ConnId) (i : ConnId) :
    leaveMembers (leaveMembers ms i) i = leaveMembers ms i := by
  simp [leaveMembers, List.filter_filter]

theorem leaveMembers_nodup {ms : List ConnId} (h : ms.Nodup) (i : ConnId) :
    (leaveMembers ms i).Nodup :=
  h.filter _

theorem joinMembers_nodup {ms : List ConnId} (h : ms.Nodup) (i : ConnId) :
    (joinMembers ms i).Nodup := by
  unfold joinMembers
  by_cases hi : i ∈ ms
  · simpa [if_pos hi]
  · simp only [if_neg hi]
    simp [List.nodup_append, h, hi]

theorem membersOf_dirJoin_self (dir : RoomDir) (q : RoomName) (j : ConnId) :
    membersOf (dirJoin dir q j) q = joinMembers (membersOf dir q) j := by
  induction dir with
  | nil => simp [dirJoin, membersOf, joinMembers]
  | cons p rest ih =>
      obtain ⟨r, ms⟩ := p
      by_cases h : r = q
      · subst h
        simp [dirJoin, membersOf]
      · simp [dirJoin, membersOf, h, ih]

theorem mem_membersOf_dirJoin_self (dir : RoomDir) (q : RoomName) (j : ConnId) :
    j ∈ membersOf (dirJoin dir q j) q := by
  rw [membersOf_dirJoin_self]
  exact mem_joinMembers.mpr (Or.inr rfl)

theorem not_mem_membersOf_dirLeaveAll (dir : RoomDir) (i : ConnId) (r : RoomName) :
    i ∉ membersOf (dirLeaveAll dir i) r := by
  induction dir with
  | nil => simp [dirLeaveAll, membersOf]
  | cons p rest ih =>
      obtain ⟨q, ms⟩ := p
      simp only [dirLeaveAll]
      by_cases he : (leaveMembers ms i).isEmpty
      · simpa [he] using ih
      · simp only [he, if_neg, Bool.false_eq_true, not_false_eq_true, membersOf]
        by_cases hq : q = r
        · simp only [hq, if_pos rfl]
          intro hmem
          exact (mem_leaveMembers.mp hmem).2 rfl
        · simpa [hq] using ih

theorem dirLeaveAll_idem (dir : RoomDir) (i : ConnId) :
    dirLeaveAll (dirLeaveAll dir i) i = dirLeaveAll dir i := by
  induction dir with
  | nil => rfl
  | cons p rest ih =>
      obtain ⟨q, ms⟩ := p
      by_cases he : (leaveMembers ms i).isEmpty
      · simp only [dirLeaveAll, he, if_pos]
        exact ih
      · simp [dirLeaveAll, he, leaveMembers_idem, ih]

theorem membersOf_nodup {dir : RoomDir} (h : ∀ p ∈ dir, p.2.Nodup) (r : RoomName) :
    (membersOf dir r).Nodup := by
  induction dir with
  | nil => simp [membersOf]
  | cons p rest ih =>
      obtain ⟨q, ms⟩ := p
      have hms : ms.Nodup := h (q, ms) (List.mem_cons_self _ _)
      have hrest : ∀ p ∈ rest, p.2.Nodup := fun p hp => h p (List.mem_cons_of_mem _ hp)
      by_cases hq : q = r
      · simpa [membersOf, hq] using hms
      · simpa [membersOf, hq] using ih hrest

/-! ### Helper lemmas about deliveries -/

/-- Pairing a fixed outbound event with a target is injective in the
target. -/
theorem deliveryMk_injective (e : OutboundEvent) :
    Function.Injective (fun c => (⟨c, e⟩ : Delivery)) := by
  intro a b hab
  simpa using congrArg Delivery.target hab

theorem count_deliveryMk_map {l : List ConnId} (hl : l.Nodup) {c : ConnId}
    (hc : c ∈ l) (e : OutboundEvent) :
    (l.map (fun x => (⟨x, e⟩ : Delivery))).count ⟨c, e⟩ = 1 :=
  List.count_eq_one_of_mem (hl.map (deliveryMk_injective e)) (List.mem_map_of_mem _ hc)

/-- Recognizer for the self-echo variant. -/
def isSelfEcho : OutboundEvent → Bool
  | .selfMessage _ _ => true
  | _ => false

/-- Recognizer for the private-message variant. -/
def isPrivateMsg : OutboundEvent → Bool
  | .privateMessage _ _ => true
  | _ => false

/-! ### The claims -/

/-- C8: a `roomMessage` to a room with zero members (never created, or
emptied by prior leaves so its entry was deleted) produces zero delivery
instructions, raises no error, and leaves the state unchanged. -/
theorem spec_C8_empty_room_no_delivery (st : ServerState) (A : ConnId)
    (r : RoomName) (t : Option String) (h : membersOf st.rooms r = []) :
    handleEvent st A (.roomMessage (some ⟨r, t⟩)) = .ok (st, []) := by
  simp [handleEvent, h]

/-- Witness for C8 at a concrete input: the initial state has no room
`lobby`, and a `roomMessage` to it yields no deliveries and no error. -/
theorem spec_C8_empty_room_no_delivery_witness :
    membersOf initState.rooms "lobby" = [] ∧
    handleEvent initState "A" (.roomMessage (some ⟨"lobby", some "x"⟩)) =
      .ok (initState, []) :=
  ⟨rfl, spec_C8_empty_room_no_delivery initState "A" "lobby" (some "x") rfl⟩

/-- C10: when the `receiverId` field of a `sendMessage` payload is falsy
(absent, or present but equal to the empty string), the private leg is not
attempted at all: the handler gates it on `if (data.receiverId)`, i.e. on
truthiness, and only the self echo and the broadcast are emitted. -/
theorem spec_C10_falsy_recipient_no_private (st : ServerState) (A : ConnId)
    (t : Option String) (rid : Option String) (h : truthy rid = false) :
    handleEvent st A (.sendMessage (some ⟨t, rid⟩)) =
      .ok (st, ⟨A, .selfMessage t "You"⟩ ::
        st.registry.map (fun c => ⟨c, .broadcastMessage t A⟩)) := by
  simp [handleEvent, h]

/-- Witness for C10 at a concrete input: `receiverId` present but equal to
the empty string is falsy, and no `privateMessage` is emitted. -/
theorem spec_C10_falsy_recipient_no_private_witness :
    truthy (some "") = false ∧
    handleEvent ⟨["A"], [("A", ["A"])]⟩ "A"
        (.sendMessage (some ⟨some "m", some ""⟩)) =
      .ok (⟨["A"], [("A", ["A"])]⟩,
        ⟨"A", .selfMessage (some "m") "You"⟩ ::
          (⟨["A"], [("A", ["A"])]⟩ : ServerState).registry.map
            (fun c => ⟨c, .broadcastMessage (some "m") "A"⟩)) :=
  ⟨rfl, spec_C10_falsy_recipient_no_private ⟨["A"], [("A", ["A"])]⟩ "A"
    (some "m") (some "") rfl⟩

/-- C5 (amended): an event name with no registered handler is dropped with
no state change and no deliveries, and a recognized event whose payload is
an object never throws; but a recognized `sendMessage`/`roomMessage` whose
payload is absent (`undefined`) makes the handler's field access throw a
`TypeError` instead of being dropped. -/
theorem spec_C5_unrecognized_dropped (st : ServerState) (A : ConnId)
    (nm : String) (d : MsgPayload) (rd : RoomMsgPayload) (r : RoomName) :
    handleEvent st A (.unknownEvent nm) = .ok (st, []) ∧
    isOk (handleEvent st A (.sendMessage (some d))) = true ∧
    isOk (handleEvent st A (.roomMessage (some rd))) = true ∧
    isOk (handleEvent st A (.joinRoom r)) = true ∧
    isOk (handleEvent st A (.sendMessage none)) = false ∧
    isOk (handleEvent st A (.roomMessage none)) = false :=
  ⟨rfl, rfl, rfl, rfl, rfl, rfl⟩

/-- Counterexample to C5 as stated: a `sendMessage` event carrying no
payload is a malformed inbound event, and the handler does not drop it —
`data.message` throws a `TypeError` (an uncaught exception, so the server
does not keep running unaffected). -/
theorem spec_C5_counterexample :
    isOk (handleEvent initState "A" (.sendMessage none)) = false ∧
    handleEvent initState "A" (.sendMessage none) =
      .error "TypeError: Cannot read properties of undefined" :=
  ⟨rfl, rfl⟩

/-- C3: a `roomMessage(room, text)` from `A` yields exactly one
`roomMessageForward` to every member of the room at dispatch time (the
sender among them whenever it is a member) and to no connection outside
the room. -/
theorem spec_C3_room_forward (st : ServerState) (A : ConnId) (r : RoomName)
    (t : Option String) :
    ∃ ds : List Delivery,
      handleEvent st A (.roomMessage (some ⟨r, t⟩)) = .ok (st, ds) ∧
      ds = (membersOf st.rooms r).map (fun c => ⟨c, .roomMessageForward t A r⟩) ∧
      (∀ c ∈ membersOf st.rooms r,
        (⟨c, .roomMessageForward t A r⟩ : Delivery) ∈ ds) ∧
      (A ∈ membersOf st.rooms r → (⟨A, .roomMessageForward t A r⟩ : Delivery) ∈ ds) ∧
      ∀ d ∈ ds, d.target ∈ membersOf st.rooms r := by
  refine ⟨_, rfl, rfl, ?_, ?_, ?_⟩
  · exact fun c hc => List.mem_map_of_mem _ hc
  · exact fun hA => List.mem_map_of_mem _ hA
  · intro d hd
    obtain ⟨c, hc, rfl⟩ := List.mem_map.mp hd
    exact hc

/-- Witness for C3 at a concrete input: room `r1` with members `A` and
`B`; a `roomMessage` from `B` is forwarded to both and to nobody else. -/
theorem spec_C3_room_forward_witness :
    ∃ ds : List Delivery,
      handleEvent ⟨["A", "B"], [("A", ["A"]), ("B", ["B"]), ("r1", ["A", "B"])]⟩ "B"
          (.roomMessage (some ⟨"r1", some "x"⟩)) =
        .ok (⟨["A", "B"], [("A", ["A"]), ("B", ["B"]), ("r1", ["A", "B"])]⟩, ds) ∧
      ds = (membersOf [("A", ["A"]), ("B", ["B"]), ("r1", ["A", "B"])] "r1").map
        (fun c => ⟨c, .roomMessageForward (some "x") "B" "r1"⟩) ∧
      (∀ c ∈ membersOf [("A", ["A"]), ("B", ["B"]), ("r1", ["A", "B"])] "r1",
        (⟨c, .roomMessageForward (some "x") "B" "r1"⟩ : Delivery) ∈ ds) ∧
      ("B" ∈ membersOf [("A", ["A"]), ("B", ["B"]), ("r1", ["A", "B"])] "r1" →
        (⟨"B", .roomMessageForward (some "x") "B" "r1"⟩ : Delivery) ∈ ds) ∧
      ∀ d ∈ ds, d.target ∈ membersOf [("A", ["A"]), ("B", ["B"]), ("r1", ["A", "B"])] "r1" :=
  spec_C3_room_forward ⟨["A", "B"], [("A", ["A"]), ("B", ["B"]), ("r1", ["A", "B"])]⟩
    "B" "r1" (some "x")

/-- C4: a `joinRoom(room)` from `A` first adds `A` to the room's
membership (`socket.join` runs before the emit), then delivers one
`roomNotification` with message `"<A> joined the room"` to every current
member of the room — the post-join membership, so `A` itself receives
it. -/
theorem spec_C4_join_then_notice (st : ServerState) (A : ConnId) (r : RoomName) :
    ∃ (st2 : ServerState) (ds : List Delivery),
      handleEvent st A (.joinRoom r) = .ok (st2, ds) ∧
      st2 = ⟨st.registry, dirJoin st.rooms r A⟩ ∧
      A ∈ membersOf st2.rooms r ∧
      ds = (membersOf st2.rooms r).map
        (fun c => ⟨c, .roomNotification (A ++ " joined the room") r⟩) ∧
      (∀ c ∈ membersOf st2.rooms r,
        (⟨c, .roomNotification (A ++ " joined the room") r⟩ : Delivery) ∈ ds) ∧
      (⟨A, .roomNotification (A ++ " joined the room") r⟩ : Delivery) ∈ ds := by
  refine ⟨_, _, rfl, rfl, mem_membersOf_dirJoin_self st.rooms r A, rfl, ?_, ?_⟩
  · exact fun c hc => List.mem_map_of_mem _ hc
  · exact List.mem_map_of_mem _ (mem_membersOf_dirJoin_self st.rooms r A)

/-- Witness for C4 at a concrete input: `B` joins room `r1` already
containing `A`; both members receive the notification, `B` included. -/
theorem spec_C4_join_then_notice_witness :
    ∃ (st2 : ServerState) (ds : List Delivery),
      handleEvent ⟨["A", "B"], [("A", ["A"]), ("B", ["B"]), ("r1", ["A"])]⟩ "B"
          (.joinRoom "r1") = .ok (st2, ds) ∧
      st2 = ⟨(⟨["A", "B"], [("A", ["A"]), ("B", ["B"]), ("r1", ["A"])]⟩ : ServerState).registry,
        dirJoin [("A", ["A"]), ("B", ["B"]), ("r1", ["A"])] "r1" "B"⟩ ∧
      "B" ∈ membersOf st2.rooms "r1" ∧
      ds = (membersOf st2.rooms "r1").map
        (fun c => ⟨c, .roomNotification ("B" ++ " joined the room") "r1"⟩) ∧
      (∀ c ∈ membersOf st2.rooms "r1",
        (⟨c, .roomNotification ("B" ++ " joined the room") "r1"⟩ : Delivery) ∈ ds) ∧
      (⟨"B", .roomNotification ("B" ++ " joined the room") "r1"⟩ : Delivery) ∈ ds :=
  spec_C4_join_then_notice ⟨["A", "B"], [("A", ["A"]), ("B", ["B"]), ("r1", ["A"])]⟩
    "B" "r1"

/-- C9: whenever the dispatch of an inbound event produces delivery
instructions, they come in a deterministic order in which every
self-targeted instruction (the self echo) precedes every broadcast, private
or room-wide instruction: the list splits into a self-echo part followed by
an echo-free remainder. -/
theorem spec_C9_self_echo_first (st : ServerState) (sender : ConnId)
    (ev : InboundEvent) (st2 : ServerState) (ds : List Delivery)
    (h : handleEvent st sender ev = .ok (st2, ds)) :
    ∃ a b : List Delivery, ds = a ++ b ∧
      (∀ d ∈ a, isSelfEcho d.event = true) ∧
      ∀ d ∈ b, isSelfEcho d.event = false := by
  cases ev with
  | sendMessage data =>
      cases data with
      | none => simp [handleEvent] at h
      | some d =>
          have h2 := h
          simp only [handleEvent, Except.ok.injEq, Prod.mk.injEq] at h2
          refine ⟨[⟨sender, .selfMessage d.message "You"⟩],
            st.registry.map (fun c => ⟨c, .broadcastMessage d.message sender⟩) ++
              (if truthy d.receiverId then
                (membersOf st.rooms (d.receiverId.getD "")).map
                  (fun c => ⟨c, .privateMessage d.message sender⟩)
              else []), by rw [← h2.2, List.singleton_append], ?_, ?_⟩
          · intro x hx
            rw [List.mem_singleton] at hx
            subst hx
            rfl
          · intro x hx
            rcases List.mem_append.mp hx with hx | hx
            · obtain ⟨c, _, rfl⟩ := List.mem_map.mp hx
              rfl
            · by_cases ht : truthy d.receiverId
              · rw [if_pos ht] at hx
                obtain ⟨c, _, rfl⟩ := List.mem_map.mp hx
                rfl
              · rw [if_neg ht] at hx
                simp at hx
  | joinRoom r =>
      have h2 := h
      simp only [handleEvent, Except.ok.injEq, Prod.mk.injEq] at h2
      refine ⟨[], ds, rfl, by simp, ?_⟩
      intro x hx
      rw [← h2.2] at hx
      obtain ⟨c, _, rfl⟩ := List.mem_map.mp hx
      rfl
  | roomMessage data =>
      cases data with
      | none => simp [handleEvent] at h
      | some d =>
          have h2 := h
          simp only [handleEvent, Except.ok.injEq, Prod.mk.injEq] at h2
          refine ⟨[], ds, rfl, by simp, ?_⟩
          intro x hx
          rw [← h2.2] at hx
          obtain ⟨c, _, rfl⟩ := List.mem_map.mp hx
          rfl
  | unknownEvent nm =>
      have h2 := h
      simp only [handleEvent, Except.ok.injEq, Prod.mk.injEq] at h2
      refine ⟨[], ds, rfl, by simp, ?_⟩
      intro x hx
      rw [← h2.2] at hx
      simp at hx

/-- Witness for C9 at a concrete input: a `sendMessage` from the sole
registered connection produces the self echo strictly before the
broadcast. -/
theorem spec_C9_self_echo_first_witness :
    ∃ a b : List Delivery,
      [(⟨"A", .selfMessage (some "hi") "You"⟩ : Delivery),
       ⟨"A", .broadcastMessage (some "hi") "A"⟩] = a ++ b ∧
      (∀ d ∈ a, isSelfEcho d.event = true) ∧
      ∀ d ∈ b, isSelfEcho d.event = false :=
  spec_C9_self_echo_first ⟨["A"], [("A", ["A"])]⟩ "A"
    (.sendMessage (some ⟨some "hi", none⟩)) ⟨["A"], [("A", ["A"])]⟩
    [⟨"A", .selfMessage (some "hi") "You"⟩, ⟨"A", .broadcastMessage (some "hi") "A"⟩]
    rfl

/-- C6: after a connection's disconnect cleanup runs, its id is absent
from every room's membership and absent from the registry, for every prior
state (hence for every prior history of joins); the cleanup is exactly
`leaveAll` followed by `unregister`, in that order, and running it a second
time changes nothing (so the guard against a double trigger is safe). -/
theorem spec_C6_disconnect_cleanup (st : ServerState) (i : ConnId) :
    (∀ r, i ∉ membersOf (disconnectCleanup i st).rooms r) ∧
    i ∉ (disconnectCleanup i st).registry ∧
    disconnectCleanup i st = unregister i (leaveAll i st) ∧
    disconnectCleanup i (disconnectCleanup i st) = disconnectCleanup i st := by
  refine ⟨?_, ?_, rfl, ?_⟩
  · intro r
    simpa [disconnectCleanup, unregister, leaveAll] using
      not_mem_membersOf_dirLeaveAll st.rooms i r
  · simp [disconnectCleanup, unregister, leaveAll, List.mem_filter]
  · simp [disconnectCleanup, unregister, leaveAll, ServerState.mk.injEq,
      dirLeaveAll_idem, List.filter_filter]

/-- Witness for C6 at a concrete input: a connection in two rooms is gone
from all membership and from the registry after cleanup. -/
theorem spec_C6_disconnect_cleanup_witness :
    (∀ r, "A" ∉ membersOf
      (disconnectCleanup "A" ⟨["A", "B"],
        [("A", ["A"]), ("B", ["B"]), ("r1", ["A", "B"]), ("r2", ["A"])]⟩).rooms r) ∧
    "A" ∉ (disconnectCleanup "A" ⟨["A", "B"],
      [("A", ["A"]), ("B", ["B"]), ("r1", ["A", "B"]), ("r2", ["A"])]⟩).registry ∧
    disconnectCleanup "A" ⟨["A", "B"],
        [("A", ["A"]), ("B", ["B"]), ("r1", ["A", "B"]), ("r2", ["A"])]⟩ =
      unregister "A" (leaveAll "A" ⟨["A", "B"],
        [("A", ["A"]), ("B", ["B"]), ("r1", ["A", "B"]), ("r2", ["A"])]⟩) ∧
    disconnectCleanup "A" (disconnectCleanup "A" ⟨["A", "B"],
        [("A", ["A"]), ("B", ["B"]), ("r1", ["A", "B"]), ("r2", ["A"])]⟩) =
      disconnectCleanup "A" ⟨["A", "B"],
        [("A", ["A"]), ("B", ["B"]), ("r1", ["A", "B"]), ("r2", ["A"])]⟩ :=
  spec_C6_disconnect_cleanup
    ⟨["A", "B"], [("A", ["A"]), ("B", ["B"]), ("r1", ["A", "B"]), ("r2", ["A"])]⟩ "A"

theorem joinMembers_idem (ms : List ConnId) (j : ConnId) :
    joinMembers (joinMembers ms j) j = joinMembers ms j := by
  unfold joinMembers
  by_cases hm : j ∈ ms
  · simp [hm]
  · simp [hm]

theorem leaveMembers_of_not_mem {ms : List ConnId} {j : ConnId} (hj : j ∉ ms) :
    leaveMembers ms j = ms := by
  unfold leaveMembers
  exact List.filter_eq_self.mpr (fun a ha => by
    simpa using fun h : a = j => hj (h ▸ ha))

/-- Membership after a sequence of operations, starting from any
membership list, is decided by the last operation touching the id (or by
the initial membership when no operation touches it). -/
theorem mem_applyOps_iff (ops : List RoomOp) (ms : List ConnId) (i : ConnId) :
    i ∈ applyOps ops ms ↔ lastStatus ops i (decide (i ∈ ms)) = true := by
  induction ops generalizing ms with
  | nil => simp [applyOps, lastStatus]
  | cons op rest ih =>
      have hstep : decide (i ∈ applyOp ms op) =
          (fun acc o =>
            match o with
            | RoomOp.join j => if j = i then true else acc
            | RoomOp.leave j => if j = i then false else acc)
            (decide (i ∈ ms)) op := by
        cases op with
        | join j =>
            by_cases hj : j = i
            · subst hj
              simp [applyOp, mem_joinMembers]
            · have hij : i ≠ j := fun hh => hj hh.symm
              simp only [if_neg hj]
              rw [decide_eq_decide]
              simp [applyOp, mem_joinMembers, hij]
        | leave j =>
            by_cases hj : j = i
            · subst hj
              simp [applyOp, mem_leaveMembers]
            · have hij : i ≠ j := fun hh => hj hh.symm
              simp only [if_neg hj]
              rw [decide_eq_decide]
              simp [applyOp, mem_leaveMembers, hij]
      show i ∈ applyOps rest (applyOp ms op) ↔
        lastStatus rest i
          ((fun acc o =>
            match o with
            | RoomOp.join j => if j = i then true else acc
            | RoomOp.leave j => if j = i then false else acc)
            (decide (i ∈ ms)) op) = true
      rw [← hstep]
      exact ih (applyOp ms op)

/-- C7: for every sequence of join/leave operations on a room, the final
membership is exactly the set of ids whose last operation in the sequence
is a join; joining twice equals joining once, and leaving while absent is
a no-op. -/
theorem spec_C7_membership_algebra :
    (∀ (ops : List RoomOp) (i : ConnId),
      i ∈ applyOps ops [] ↔ lastIsJoin ops i = true) ∧
    (∀ (ms : List ConnId) (j : ConnId),
      applyOp (applyOp ms (RoomOp.join j)) (RoomOp.join j) = applyOp ms (RoomOp.join j)) ∧
    ∀ (ms : List ConnId) (j : ConnId), j ∉ ms → applyOp ms (RoomOp.leave j) = ms := by
  refine ⟨?_, ?_, ?_⟩
  · intro ops i
    simpa [lastIsJoin] using mem_applyOps_iff ops [] i
  · intro ms j
    simpa [applyOp] using joinMembers_idem ms j
  · intro ms j hj
    simpa [applyOp] using leaveMembers_of_not_mem hj

/-- Witness for C7 at concrete inputs: leaving while absent is a no-op,
and after `join x, join x, leave y` the id `x` is a member because its last
operation is a join. -/
theorem spec_C7_membership_algebra_witness :
    ("b" ∉ (["a"] : List ConnId) ∧ applyOp ["a"] (RoomOp.leave "b") = ["a"]) ∧
    ("x" ∈ applyOps [RoomOp.join "x", RoomOp.join "x", RoomOp.leave "y"] [] ↔
      lastIsJoin [RoomOp.join "x", RoomOp.join "x", RoomOp.leave "y"] "x" = true) :=
  ⟨⟨by decide, spec_C7_membership_algebra.2.2 ["a"] "b" (by decide)⟩,
   spec_C7_membership_algebra.1 [RoomOp.join "x", RoomOp.join "x", RoomOp.leave "y"] "x"⟩

/-- C1: a `sendMessage` with no recipient from a registered connection `A`
yields exactly one self echo to `A`, exactly one broadcast to every
registered connection (`A` itself included), and no other delivery
instruction. -/
theorem spec_C1_echo_and_broadcast (st : ServerState) (A : ConnId)
    (t : Option String) (hA : A ∈ st.registry) (hnd : st.registry.Nodup) :
    ∃ ds : List Delivery,
      handleEvent st A (.sendMessage (some ⟨t, none⟩)) = .ok (st, ds) ∧
      ds = ⟨A, .selfMessage t "You"⟩ ::
        st.registry.map (fun c => ⟨c, .broadcastMessage t A⟩) ∧
      ds.count ⟨A, .selfMessage t "You"⟩ = 1 ∧
      (∀ c ∈ st.registry, ds.count ⟨c, .broadcastMessage t A⟩ = 1) ∧
      (⟨A, .broadcastMessage t A⟩ : Delivery) ∈ ds ∧
      ∀ d ∈ ds, d = ⟨A, .selfMessage t "You"⟩ ∨
        ∃ c ∈ st.registry, d = ⟨c, .broadcastMessage t A⟩ := by
  refine ⟨⟨A, .selfMessage t "You"⟩ ::
    st.registry.map (fun c => ⟨c, .broadcastMessage t A⟩),
    by simp [handleEvent, truthy], rfl, ?_, ?_, ?_, ?_⟩
  · have h0 : (st.registry.map
        (fun c => (⟨c, .broadcastMessage t A⟩ : Delivery))).count
          ⟨A, .selfMessage t "You"⟩ = 0 :=
      List.count_eq_zero.mpr (by simp)
    simp [List.count_cons, h0]
  · intro c hc
    have h1 := count_deliveryMk_map hnd hc (.broadcastMessage t A)
    simp [List.count_cons, h1]
  · exact List.mem_cons_of_mem _ (List.mem_map_of_mem _ hA)
  · intro d hd
    rcases List.mem_cons.mp hd with rfl | hd
    · exact Or.inl rfl
    · obtain ⟨c, hc, rfl⟩ := List.mem_map.mp hd
      exact Or.inr ⟨c, hc, rfl⟩

/-- Witness for C1 at a concrete input: two registered connections, `A`
sends with no recipient; one echo to `A`, one broadcast each. -/
theorem spec_C1_echo_and_broadcast_witness :
    "A" ∈ (⟨["A", "B"], [("A", ["A"]), ("B", ["B"])]⟩ : ServerState).registry ∧
    (⟨["A", "B"], [("A", ["A"]), ("B", ["B"])]⟩ : ServerState).registry.Nodup ∧
    ∃ ds : List Delivery,
      handleEvent ⟨["A", "B"], [("A", ["A"]), ("B", ["B"])]⟩ "A"
          (.sendMessage (some ⟨some "hi", none⟩)) =
        .ok (⟨["A", "B"], [("A", ["A"]), ("B", ["B"])]⟩, ds) ∧
      ds = ⟨"A", .selfMessage (some "hi") "You"⟩ ::
        (⟨["A", "B"], [("A", ["A"]), ("B", ["B"])]⟩ : ServerState).registry.map
          (fun c => ⟨c, .broadcastMessage (some "hi") "A"⟩) ∧
      ds.count ⟨"A", .selfMessage (some "hi") "You"⟩ = 1 ∧
      (∀ c ∈ (⟨["A", "B"], [("A", ["A"]), ("B", ["B"])]⟩ : ServerState).registry,
        ds.count ⟨c, .broadcastMessage (some "hi") "A"⟩ = 1) ∧
      (⟨"A", .broadcastMessage (some "hi") "A"⟩ : Delivery) ∈ ds ∧
      ∀ d ∈ ds, d = ⟨"A", .selfMessage (some "hi") "You"⟩ ∨
        ∃ c ∈ (⟨["A", "B"], [("A", ["A"]), ("B", ["B"])]⟩ : ServerState).registry,
          d = ⟨c, .broadcastMessage (some "hi") "A"⟩ :=
  ⟨by decide, by decide,
    spec_C1_echo_and_broadcast ⟨["A", "B"], [("A", ["A"]), ("B", ["B"])]⟩ "A"
      (some "hi") (by decide) (by decide)⟩

/-- C2 (amended): for a `sendMessage` carrying a truthy `recipientId` `B`,
if `B` is registered then exactly one `privateMessage` is delivered to `B`
(it is a member of its personal room); if `B` is not registered and no
connection is a member of a room named `B`, then no `privateMessage` is
delivered at all, and in neither case does any error reach the sender. -/
theorem spec_C2_private_leg (st : ServerState) (A B : ConnId) (t : Option String)
    (hwf : WellFormed st) (hB : B ≠ "") :
    (B ∈ st.registry →
      ∃ ds : List Delivery,
        handleEvent st A (.sendMessage (some ⟨t, some B⟩)) = .ok (st, ds) ∧
        ds.count ⟨B, .privateMessage t A⟩ = 1) ∧
    (B ∉ st.registry → membersOf st.rooms B = [] →
      ∃ ds : List Delivery,
        handleEvent st A (.sendMessage (some ⟨t, some B⟩)) = .ok (st, ds) ∧
        ∀ d ∈ ds, isPrivateMsg d.event = false) := by
  obtain ⟨hnd, hpersonal, hrooms⟩ := hwf
  have htruthy : truthy (some B) = true := by simp [truthy, hB]
  constructor
  · intro hBreg
    refine ⟨⟨A, .selfMessage t "You"⟩ ::
      (st.registry.map (fun c => ⟨c, .broadcastMessage t A⟩) ++
        (membersOf st.rooms B).map (fun c => ⟨c, .privateMessage t A⟩)),
      by simp [handleEvent, htruthy], ?_⟩
    have hBmem : B ∈ membersOf st.rooms B := hpersonal B hBreg
    have hpriv := count_deliveryMk_map (membersOf_nodup hrooms B) hBmem
      (.privateMessage t A)
    have hb0 : (st.registry.map
        (fun c => (⟨c, .broadcastMessage t A⟩ : Delivery))).count
          ⟨B, .privateMessage t A⟩ = 0 :=
      List.count_eq_zero.mpr (by simp)
    simp [List.count_cons, List.count_append, hb0, hpriv]
  · intro hBreg hempty
    refine ⟨⟨A, .selfMessage t "You"⟩ ::
      st.registry.map (fun c => ⟨c, .broadcastMessage t A⟩),
      by simp [handleEvent, htruthy, hempty], ?_⟩
    intro d hd
    rcases List.mem_cons.mp hd with rfl | hd
    · rfl
    · obtain ⟨c, _, rfl⟩ := List.mem_map.mp hd
      rfl

/-- Witness for C2 (amended) at a concrete input: `B` registered gets
exactly one private message; an unknown id `Z` naming no room gets none. -/
theorem spec_C2_private_leg_witness :
    WellFormed ⟨["A", "B"], [("A", ["A"]), ("B", ["B"])]⟩ ∧ "B" ≠ "" ∧
    ("B" ∈ (⟨["A", "B"], [("A", ["A"]), ("B", ["B"])]⟩ : ServerState).registry →
      ∃ ds : List Delivery,
        handleEvent ⟨["A", "B"], [("A", ["A"]), ("B", ["B"])]⟩ "A"
            (.sendMessage (some ⟨some "hi", some "B"⟩)) =
          .ok (⟨["A", "B"], [("A", ["A"]), ("B", ["B"])]⟩, ds) ∧
        ds.count ⟨"B", .privateMessage (some "hi") "A"⟩ = 1) ∧
    ("B" ∉ (⟨["A", "B"], [("A", ["A"]), ("B", ["B"])]⟩ : ServerState).registry →
      membersOf (⟨["A", "B"], [("A", ["A"]), ("B", ["B"])]⟩ : ServerState).rooms "B" = [] →
      ∃ ds : List Delivery,
        handleEvent ⟨["A", "B"], [("A", ["A"]), ("B", ["B"])]⟩ "A"
            (.sendMessage (some ⟨some "hi", some "B"⟩)) =
          .ok (⟨["A", "B"], [("A", ["A"]), ("B", ["B"])]⟩, ds) ∧
        ∀ d ∈ ds, isPrivateMsg d.event = false) :=
  ⟨by decide, by decide,
    (spec_C2_private_leg ⟨["A", "B"], [("A", ["A"]), ("B", ["B"])]⟩ "A" "B"
      (some "hi") (by decide) (by decide)).1,
    (spec_C2_private_leg ⟨["A", "B"], [("A", ["A"]), ("B", ["B"])]⟩ "A" "B"
      (some "hi") (by decide) (by decide)).2⟩

/-- A reachable state in which the recipient id `"B"` is not registered
but a room named `"B"` exists: `A` and `C` connect, then `C` joins the
room named `"B"`. -/
def aliasedState : ServerState :=
  stepState (connect (connect initState "A") "C") "C" (.joinRoom "B")

/-- Counterexample to C2 as stated: in `aliasedState` the id `"B"` is not
a registered connection, yet a `sendMessage` with `recipientId = "B"`
does deliver a `privateMessage` — to `C`, the member of the room named
`"B"` — because `io.to(recipientId)` addresses a room, not a registry
lookup.  So "if B is not registered, no Private delivery occurs" fails. -/
theorem spec_C2_counterexample :
    "B" ∉ aliasedState.registry ∧
    handleEvent aliasedState "A" (.sendMessage (some ⟨some "hi", some "B"⟩)) =
      .ok (aliasedState,
        [⟨"A", .selfMessage (some "hi") "You"⟩,
         ⟨"A", .broadcastMessage (some "hi") "A"⟩,
         ⟨"C", .broadcastMessage (some "hi") "A"⟩,
         ⟨"C", .privateMessage (some "hi") "A"⟩]) ∧
    isPrivateMsg (OutboundEvent.privateMessage (some "hi") "A") = true :=
  ⟨by decide, rfl, rfl⟩
